import Mathlib

/-!
Shallow embedding of the tracked wallet client
(web/src/lib/services/tracked-wallet or equivalent: the module defining
createTrackedWalletClient, with its types module).

The wrapper is deterministic sequential code whose only effects are calls to
injected collaborators (public client, wallet client, crypto.randomUUID,
Date.now) and console warnings.  We embed it as a state-passing function
St -> Except Err A × St where the state carries:
  - uuidCounter : the stream position of crypto.randomUUID (each call returns
    uuidOf counter and advances it; freshness of randomUUID is modelled by
    injectivity hypotheses where a claim needs it);
  - clock : a logical wall clock (Date.now reads it; every awaited collaborator
    round-trip advances it by one, modelling that real time passes across
    network awaits);
  - trace : the list of collaborator invocations and emitted records, in
    order, used to state which collaborators a run invoked.
Collaborator behaviour (RPC results, broadcast results, parsing, signature
recovery) is an arbitrary oracle environment Env; errors thrown by a
collaborator are its Except.error results and propagate through the monad.
-/

namespace TrackedWallet

abbrev Address := String

abbrev Hash := String

abbrev RawTx := String

/-- Block tags accepted by isBlockTag in the source. -/
inductive BlockTag
  | latest
  | pending
  | earliest
  | safe
  | finalized
deriving DecidableEq, Repr

/-- NonceOption = number | BlockTag; the absent case is Option.none outside. -/
inductive NonceOption
  | exact (n : Nat)
  | tag (t : BlockTag)
deriving DecidableEq, Repr

/-- Account | Address: either a plain address string or an account object
with an address field. -/
inductive AccountRef
  | addr (a : Address)
  | account (a : Address)
deriving DecidableEq, Repr

/-- resolveAccountAddress from the source: undefined and null map to none,
a string to itself, an account object to its address field. -/
def resolveAccountAddress : Option AccountRef → Option Address
  | none => none
  | some (AccountRef.addr a) => some a
  | some (AccountRef.account a) => some a

/-- normalizeAccount from the source coerces null to undefined; with both
modelled as Option.none it is the identity. -/
def normalizeAccount (account : Option AccountRef) : Option AccountRef :=
  account

/-- TransactionMetadata: the wrapper only inspects the id field; the other
well-known fields and the open-ended extra bag are opaque. -/
structure Metadata where
  id : Option String := none
  title : Option String := none
  description : Option String := none
  extra : List (String × String) := []
deriving DecidableEq, Repr

/-- Parameters of the contract-call and transfer families
(TrackedWriteContractParameters / TrackedSendTransactionParameters):
account, nonce and metadata are the fields the wrapper destructures or
inspects; every other underlying parameter is the opaque rest payload. -/
structure CallArgs where
  account : Option AccountRef := none
  nonce : Option NonceOption := none
  metadata : Option Metadata := none
  rest : String := ""
deriving DecidableEq, Repr

/-- The object the source builds by destructuring metadata and nonce out of
the call arguments: the remaining fields (account and the opaque rest). -/
structure StrippedArgs where
  account : Option AccountRef
  rest : String
deriving DecidableEq, Repr

/-- The rest-spread in writeContract and sendTransaction: drop metadata and
nonce, keep everything else. -/
def stripArgs (args : CallArgs) : StrippedArgs :=
  { account := args.account, rest := args.rest }

/-- TrackedRawTransactionParameters. -/
structure RawArgs where
  serializedTransaction : RawTx
  metadata : Option Metadata := none
deriving DecidableEq, Repr

/-- The request payload stored in a tracking record: the stripped call
arguments for the call and transfer families, the serialized transaction
object for the relay family. -/
inductive Request
  | call (a : StrippedArgs)
  | raw (serializedTransaction : RawTx)
deriving DecidableEq, Repr

/-- TrackedTransaction record; the source field from is fromAddr here. -/
structure TrackedTransaction where
  trackingId : String
  txHash : Hash
  fromAddr : Address
  nonce : Nat
  chainId : Nat
  metadata : Metadata
  initiatedAt : Nat
  request : Request
deriving DecidableEq, Repr

/-- Internal TransactionContext. -/
structure TransactionContext where
  fromAddr : Address
  intendedNonce : Nat
deriving DecidableEq, Repr

/-- A transaction receipt, as far as the wrapper looks at it: the hash it
extracts plus opaque remainder. -/
structure Receipt where
  transactionHash : Hash
  blockNumber : Nat := 0
deriving DecidableEq, Repr

/-- Errors: the two errors the wrapper itself throws, plus arbitrary
collaborator errors carried opaque. -/
inductive Err
  | noAccount
  | cannotExtractNonce
  | external (msg : String)
deriving DecidableEq, Repr

/-- Result of parseTransaction, as far as the wrapper looks at it: the
decoded nonce may be absent. -/
structure ParsedTx where
  nonce : Option Nat
deriving DecidableEq, Repr

/-- Observable events of one run: collaborator invocations, warnings, id
generation, and construction of the tracking record (the value handed to the
extension hook). -/
inductive Event
  | getTransactionCount (address : Address) (blockTag : BlockTag)
  | broadcast (nonce : Nat)
  | rawBroadcast
  | getTransaction (hash : Hash)
  | genId (counter : Nat)
  | warnNonceMismatch (intended : Nat) (actual : Nat)
  | warnTxNotFound (hash : Hash)
  | record (t : TrackedTransaction)
deriving DecidableEq, Repr

/-- Threaded run state. -/
structure St where
  uuidCounter : Nat := 0
  clock : Nat := 0
  trace : List Event := []
deriving DecidableEq, Repr

/-- The oracle environment: configuration of the wrapped wallet client and
the behaviour of every external collaborator. -/
structure Env where
  walletAccount : Option AccountRef
  chainId : Option Nat
  getTransactionCount : Address → BlockTag → Except Err Nat
  getTransaction : Hash → Except Err Nat
  writeContractImpl : StrippedArgs → Nat → Except Err Hash
  writeContractSyncImpl : StrippedArgs → Nat → Except Err Receipt
  sendTransactionImpl : StrippedArgs → Nat → Except Err Hash
  sendTransactionSyncImpl : StrippedArgs → Nat → Except Err Receipt
  sendRawTransactionImpl : RawTx → Except Err Hash
  sendRawTransactionSyncImpl : RawTx → Except Err Receipt
  parseTransaction : RawTx → Except Err ParsedTx
  recoverTransactionAddress : RawTx → Except Err Address
  uuidOf : Nat → String

/-- The run monad: deterministic state passing, errors preserve the state
reached so far (the trace of calls already made is kept). -/
def M (α : Type) : Type := St → Except Err α × St

def mret {α : Type} (a : α) : M α :=
  fun s => (Except.ok a, s)

def mthrow {α : Type} (e : Err) : M α :=
  fun s => (Except.error e, s)

def mbind {α β : Type} (x : M α) (f : α → M β) : M β :=
  fun s =>
    match x s with
    | (Except.error e, s1) => (Except.error e, s1)
    | (Except.ok a, s1) => f a s1

/-- One awaited collaborator round-trip: record the event, advance the
clock, and return whatever the oracle answers (ok or thrown). -/
def netCall {α : Type} (e : Event) (r : Except Err α) : M α :=
  fun s => (r, { s with clock := s.clock + 1, trace := s.trace ++ [e] })

/-- Date.now: synchronous read of the wall clock. -/
def dateNow : M Nat :=
  fun s => (Except.ok s.clock, s)

/-- generateTrackingId: crypto.randomUUID, modelled as the next value of the
uuid stream; synchronous, so no clock tick. -/
def generateTrackingId (env : Env) : M String :=
  fun s =>
    (Except.ok (env.uuidOf s.uuidCounter),
     { s with uuidCounter := s.uuidCounter + 1, trace := s.trace ++ [Event.genId s.uuidCounter] })

/-- publicClient.getTransactionCount as the wrapper awaits it. -/
def callGetTransactionCount (env : Env) (address : Address) (blockTag : BlockTag) : M Nat :=
  netCall (Event.getTransactionCount address blockTag) (env.getTransactionCount address blockTag)

/-- resolveNonce from the source: an explicit number is used as is with no
lookup; a block tag or an absent option triggers a getTransactionCount call,
with tag pending when absent. -/
def resolveNonce (env : Env) (nonceOption : Option NonceOption) (fromAddr : Address) : M Nat :=
  match nonceOption with
  | some (NonceOption.exact n) => mret n
  | other =>
    let blockTag :=
      match other with
      | some (NonceOption.tag t) => t
      | _ => BlockTag.pending
    callGetTransactionCount env fromAddr blockTag

/-- The account fallback in extractTransactionContext:
args.account ?? walletClient.account. -/
def effAccount (env : Env) (account : Option AccountRef) : Option AccountRef :=
  match account with
  | some a => some a
  | none => env.walletAccount

/-- extractTransactionContext from the source: resolve the sender address or
throw the no-account configuration error before any collaborator call, then
resolve the nonce. -/
def extractTransactionContext (env : Env) (account : Option AccountRef)
    (nonce : Option NonceOption) : M TransactionContext :=
  match resolveAccountAddress (effAccount env account) with
  | none => mthrow Err.noAccount
  | some fromAddr =>
    mbind (resolveNonce env nonce fromAddr) fun intendedNonce =>
      mret { fromAddr := fromAddr, intendedNonce := intendedNonce }

/-- extractRawTransactionContext from the source: parse the serialized
transaction, throw the decoding error when the parsed nonce is absent, then
recover the sender address from the signature (a local computation, no
clock tick). -/
def extractRawTransactionContext (env : Env) (serializedTransaction : RawTx) :
    M TransactionContext :=
  match env.parseTransaction serializedTransaction with
  | Except.error e => mthrow e
  | Except.ok parsedTx =>
    match parsedTx.nonce with
    | none => mthrow Err.cannotExtractNonce
    | some n =>
      match env.recoverTransactionAddress serializedTransaction with
      | Except.error e => mthrow e
      | Except.ok fromAddr => mret { fromAddr := fromAddr, intendedNonce := n }

/-- verifyTransactionNonce from the source: fetch the broadcast transaction;
on success return its actual nonce, warning on a mismatch; on a fetch error
warn and fall back to the intended nonce.  Never throws. -/
def verifyTransactionNonce (env : Env) (hash : Hash) (intendedNonce : Nat) : M Nat :=
  fun s =>
    let s1 := { s with clock := s.clock + 1, trace := s.trace ++ [Event.getTransaction hash] }
    match env.getTransaction hash with
    | Except.ok actualNonce =>
      if actualNonce ≠ intendedNonce then
        (Except.ok actualNonce,
         { s1 with trace := s1.trace ++ [Event.warnNonceMismatch intendedNonce actualNonce] })
      else
        (Except.ok actualNonce, s1)
    | Except.error _ =>
      (Except.ok intendedNonce, { s1 with trace := s1.trace ++ [Event.warnTxNotFound hash] })

/-- createTrackedTransaction from the source.  The tracking id is
metadata?.id ?? generateTrackingId() (the nullish check, so an empty string
id is kept); chainId is walletClient.chain?.id ?? 1; initiatedAt is
Date.now() read here, at record construction.  The constructed record is
logged to the trace (it is the value the pending emit hook would receive). -/
def createTrackedTransaction (env : Env) (txHash : Hash) (fromAddr : Address)
    (nonce : Nat) (metadata : Option Metadata) (request : Request) : M TrackedTransaction :=
  mbind
    (match metadata.bind Metadata.id with
     | some i => mret i
     | none => generateTrackingId env) fun trackingId =>
  mbind dateNow fun now =>
  let t : TrackedTransaction :=
    { trackingId := trackingId, txHash := txHash, fromAddr := fromAddr, nonce := nonce,
      chainId := env.chainId.getD 1, metadata := metadata.getD {}, initiatedAt := now,
      request := request }
  fun s => (Except.ok t, { s with trace := s.trace ++ [Event.record t] })

/-- executeTrackedTransaction from the source: extract context, run the
underlying broadcast with the resolved nonce injected, verify the nonce
post-broadcast, build the tracking record, and return the underlying
result unchanged. -/
def executeTrackedTransaction {R : Type} (env : Env)
    (account : Option AccountRef) (nonce : Option NonceOption)
    (metadata : Option Metadata) (restArgs : StrippedArgs)
    (execute : StrippedArgs → Nat → M R) (extractHash : R → Hash) : M R :=
  mbind (extractTransactionContext env account nonce) fun ctx =>
  mbind (execute restArgs ctx.intendedNonce) fun result =>
  mbind (verifyTransactionNonce env (extractHash result) ctx.intendedNonce) fun actualNonce =>
  mbind (createTrackedTransaction env (extractHash result) ctx.fromAddr actualNonce metadata
    (Request.call restArgs)) fun _ =>
  mret result

/-- executeTrackedRawTransaction from the source: extract context from the
serialized payload, broadcast, skip nonce verification, build the tracking
record with the decoded nonce, and return the underlying result unchanged. -/
def executeTrackedRawTransaction {R : Type} (env : Env)
    (serializedTransaction : RawTx) (metadata : Option Metadata)
    (execute : M R) (extractHash : R → Hash) : M R :=
  mbind (extractRawTransactionContext env serializedTransaction) fun ctx =>
  mbind execute fun result =>
  mbind (createTrackedTransaction env (extractHash result) ctx.fromAddr ctx.intendedNonce
    metadata (Request.raw serializedTransaction)) fun _ =>
  mret result

/-- The shape shared by the four call and transfer family operations: the
underlying wallet client method is awaited with the stripped arguments plus
the injected nonce. -/
def broadcastVia {R : Type} (impl : StrippedArgs → Nat → Except Err R)
    (a : StrippedArgs) (n : Nat) : M R :=
  netCall (Event.broadcast n) (impl a n)

/-- writeContract of the tracked client. -/
def writeContract (env : Env) (args : CallArgs) : M Hash :=
  executeTrackedTransaction env (normalizeAccount args.account) args.nonce args.metadata
    (stripArgs args) (broadcastVia env.writeContractImpl) (fun hash => hash)

/-- sendTransaction of the tracked client. -/
def sendTransaction (env : Env) (args : CallArgs) : M Hash :=
  executeTrackedTransaction env (normalizeAccount args.account) args.nonce args.metadata
    (stripArgs args) (broadcastVia env.sendTransactionImpl) (fun hash => hash)

/-- writeContractSync of the tracked client: the hash is extracted from the
receipt. -/
def writeContractSync (env : Env) (args : CallArgs) : M Receipt :=
  executeTrackedTransaction env (normalizeAccount args.account) args.nonce args.metadata
    (stripArgs args) (broadcastVia env.writeContractSyncImpl)
    (fun receipt => receipt.transactionHash)

/-- sendTransactionSync of the tracked client. -/
def sendTransactionSync (env : Env) (args : CallArgs) : M Receipt :=
  executeTrackedTransaction env (normalizeAccount args.account) args.nonce args.metadata
    (stripArgs args) (broadcastVia env.sendTransactionSyncImpl)
    (fun receipt => receipt.transactionHash)

/-- sendRawTransaction of the tracked client. -/
def sendRawTransaction (env : Env) (args : RawArgs) : M Hash :=
  executeTrackedRawTransaction env args.serializedTransaction args.metadata
    (netCall Event.rawBroadcast (env.sendRawTransactionImpl args.serializedTransaction))
    (fun hash => hash)

/-- sendRawTransactionSync of the tracked client. -/
def sendRawTransactionSync (env : Env) (args : RawArgs) : M Receipt :=
  executeTrackedRawTransaction env args.serializedTransaction args.metadata
    (netCall Event.rawBroadcast (env.sendRawTransactionSyncImpl args.serializedTransaction))
    (fun receipt => receipt.transactionHash)

/-- A uniform name for the six public operations, to quantify over them. -/
inductive Op
  | write (args : CallArgs)
  | writeSync (args : CallArgs)
  | send (args : CallArgs)
  | sendSync (args : CallArgs)
  | raw (args : RawArgs)
  | rawSync (args : RawArgs)
deriving DecidableEq, Repr

/-- The result of an operation: a hash or a receipt. -/
inductive Outcome
  | hash (h : Hash)
  | receipt (r : Receipt)
deriving DecidableEq, Repr

def mapOutcome {R : Type} (f : R → Outcome) (x : M R) : M Outcome :=
  fun s =>
    match x s with
    | (Except.ok r, s1) => (Except.ok (f r), s1)
    | (Except.error e, s1) => (Except.error e, s1)

/-- Run any of the six public operations, with the result injected into
Outcome (states and errors untouched). -/
def runOp (env : Env) : Op → M Outcome
  | Op.write args => mapOutcome Outcome.hash (writeContract env args)
  | Op.writeSync args => mapOutcome Outcome.receipt (writeContractSync env args)
  | Op.send args => mapOutcome Outcome.hash (sendTransaction env args)
  | Op.sendSync args => mapOutcome Outcome.receipt (sendTransactionSync env args)
  | Op.raw args => mapOutcome Outcome.hash (sendRawTransaction env args)
  | Op.rawSync args => mapOutcome Outcome.receipt (sendRawTransactionSync env args)

/-- The tracking records appearing in a trace. -/
def recordsOf (trace : List Event) : List TrackedTransaction :=
  trace.filterMap fun e =>
    match e with
    | Event.record t => some t
    | _ => none

/-- Is the event an invocation of the nonce-lookup collaborator. -/
def isNonceLookup : Event → Bool
  | Event.getTransactionCount _ _ => true
  | _ => false

/-- Is the event an invocation of the post-broadcast transaction lookup. -/
def isTxLookup : Event → Bool
  | Event.getTransaction _ => true
  | _ => false

/-- Is the event an invocation of an underlying broadcast collaborator. -/
def isBroadcastCall : Event → Bool
  | Event.broadcast _ => true
  | Event.rawBroadcast => true
  | _ => false

/-- Is the event an awaited network round-trip (those that tick the clock). -/
def isNetworkCall : Event → Bool
  | Event.getTransactionCount _ _ => true
  | Event.broadcast _ => true
  | Event.rawBroadcast => true
  | Event.getTransaction _ => true
  | _ => false

/-- Is the event a tracking-id generation. -/
def isGenId : Event → Bool
  | Event.genId _ => true
  | _ => false

/-! Observation functions: closed forms for the values the stages of a run
produce, read off the source, used to characterise whole runs. -/

/-- The block tag resolveNonce looks up when the option is not an explicit
number: the tag itself, or pending when absent. -/
def lookupTag : Option NonceOption → BlockTag
  | some (NonceOption.tag t) => t
  | _ => BlockTag.pending

/-- The outcome of nonce resolution for a sender: an explicit number
verbatim, otherwise whatever the nonce-lookup collaborator answers at the
looked-up tag. -/
def resolvedNonce (env : Env) (fromAddr : Address) : Option NonceOption → Except Err Nat
  | some (NonceOption.exact n) => Except.ok n
  | other => env.getTransactionCount fromAddr (lookupTag other)

/-- The nonce-lookup events nonce resolution emits: none for an explicit
number, exactly one otherwise. -/
def lookupEvents (fromAddr : Address) : Option NonceOption → List Event
  | some (NonceOption.exact _) => []
  | other => [Event.getTransactionCount fromAddr (lookupTag other)]

/-- The nonce the post-broadcast verification settles on: the actual
on-chain nonce when the lookup succeeds, the intended nonce otherwise. -/
def verifiedNonce (env : Env) (hash : Hash) (intendedNonce : Nat) : Nat :=
  match env.getTransaction hash with
  | Except.ok actualNonce => actualNonce
  | Except.error _ => intendedNonce

/-- The warnings the post-broadcast verification emits. -/
def warnList (env : Env) (hash : Hash) (intendedNonce : Nat) : List Event :=
  match env.getTransaction hash with
  | Except.ok actualNonce =>
    if actualNonce ≠ intendedNonce then [Event.warnNonceMismatch intendedNonce actualNonce]
    else []
  | Except.error _ => [Event.warnTxNotFound hash]

/-- The id-generation events record creation emits: none when the caller
supplied a (non-nullish) metadata id, one otherwise. -/
def genEvents (metadata : Option Metadata) (counter : Nat) : List Event :=
  match metadata.bind Metadata.id with
  | some _ => []
  | none => [Event.genId counter]

/-- How many tracking ids record creation generates. -/
def genCount (metadata : Option Metadata) : Nat :=
  match metadata.bind Metadata.id with
  | some _ => 0
  | none => 1

/-- The record createTrackedTransaction builds, as a function of its inputs,
the uuid stream position and the clock at the moment it runs. -/
def mkRecord (env : Env) (txHash : Hash) (fromAddr : Address) (nonce : Nat)
    (metadata : Option Metadata) (request : Request) (counter : Nat) (clock : Nat) :
    TrackedTransaction :=
  { trackingId := (metadata.bind Metadata.id).getD (env.uuidOf counter),
    txHash := txHash, fromAddr := fromAddr, nonce := nonce,
    chainId := env.chainId.getD 1, metadata := metadata.getD {},
    initiatedAt := clock, request := request }

/-- The metadata argument an operation was invoked with. -/
def opMetadata : Op → Option Metadata
  | Op.write args => args.metadata
  | Op.writeSync args => args.metadata
  | Op.send args => args.metadata
  | Op.sendSync args => args.metadata
  | Op.raw args => args.metadata
  | Op.rawSync args => args.metadata

/-- The request payload the tracking record of an operation stores. -/
def opRequest : Op → Request
  | Op.write args => Request.call (stripArgs args)
  | Op.writeSync args => Request.call (stripArgs args)
  | Op.send args => Request.call (stripArgs args)
  | Op.sendSync args => Request.call (stripArgs args)
  | Op.raw args => Request.raw args.serializedTransaction
  | Op.rawSync args => Request.raw args.serializedTransaction

/-- Modelled from the spec words for the request field: the original call
arguments with only the metadata field removed (every other field, the
nonce option included, retained). -/
def specRequestArgs (args : CallArgs) : CallArgs :=
  { args with metadata := none }

/-- Read a stored call-family request payload back as call arguments, absent
fields mapped to none, for comparison with the spec-side request. -/
def requestAsCallArgs : Request → Option CallArgs
  | Request.call a =>
    some { account := a.account, nonce := none, metadata := none, rest := a.rest }
  | Request.raw _ => none

/-! Concrete fixtures used to instantiate hypotheses of the theorems. -/

/-- A concrete environment whose collaborators all succeed.  The uuid
stream yields pairwise distinct strings (see envA_uuidOf_injective). -/
def envA : Env :=
  { walletAccount := some (AccountRef.addr "0xa1"),
    chainId := some 7,
    getTransactionCount := fun _ _ => Except.ok 41,
    getTransaction := fun _ => Except.ok 41,
    writeContractImpl := fun _ _ => Except.ok "0xh1",
    writeContractSyncImpl := fun _ _ => Except.ok { transactionHash := "0xh2", blockNumber := 5 },
    sendTransactionImpl := fun _ _ => Except.ok "0xh3",
    sendTransactionSyncImpl := fun _ _ => Except.ok { transactionHash := "0xh4", blockNumber := 6 },
    sendRawTransactionImpl := fun _ => Except.ok "0xh5",
    sendRawTransactionSyncImpl := fun _ => Except.ok { transactionHash := "0xh6", blockNumber := 7 },
    parseTransaction := fun _ => Except.ok { nonce := some 9 },
    recoverTransactionAddress := fun _ => Except.ok "0xr1",
    uuidOf := fun k => String.mk (List.replicate k 'u') }

/-- envA with every broadcast collaborator rejecting. -/
def envErr : Env :=
  { envA with
    writeContractImpl := fun _ _ => Except.error (Err.external "boom"),
    writeContractSyncImpl := fun _ _ => Except.error (Err.external "boom"),
    sendTransactionImpl := fun _ _ => Except.error (Err.external "boom"),
    sendTransactionSyncImpl := fun _ _ => Except.error (Err.external "boom"),
    sendRawTransactionImpl := fun _ => Except.error (Err.external "boom"),
    sendRawTransactionSyncImpl := fun _ => Except.error (Err.external "boom") }

/-- envA with no configured wallet account. -/
def envNoAcct : Env :=
  { envA with walletAccount := none }

/-- envA whose parsed serialized transactions carry no nonce. -/
def envNoNonce : Env :=
  { envA with parseTransaction := fun _ => Except.ok { nonce := none } }

/-- The initial run state. -/
def st0 : St :=
  {}

/-- Call arguments relying on the wallet default account, with no nonce
option and no metadata. -/
def argsA : CallArgs :=
  {}

/-- Call arguments with an explicit numeric nonce and an opaque payload. -/
def argsC9 : CallArgs :=
  { account := none, nonce := some (NonceOption.exact 5), metadata := none, rest := "payload" }

/-- Call arguments whose metadata id is the empty string. -/
def argsEmptyId : CallArgs :=
  { metadata := some { id := some "" } }

/-- Concrete relay arguments. -/
def rawArgsA : RawArgs :=
  { serializedTransaction := "0xsigned" }

/-! Characterisations of the stages of a run. -/

theorem recordsOf_append (a b : List Event) :
    recordsOf (a ++ b) = recordsOf a ++ recordsOf b := by
  simp [recordsOf]

theorem recordsOf_lookupEvents (fromAddr : Address) (no : Option NonceOption) :
    recordsOf (lookupEvents fromAddr no) = [] := by
  rcases no with _ | no
  · simp [lookupEvents, recordsOf]
  · rcases no with n | t <;> simp [lookupEvents, recordsOf]

theorem recordsOf_warnList (env : Env) (hash : Hash) (n : Nat) :
    recordsOf (warnList env hash n) = [] := by
  unfold warnList
  cases env.getTransaction hash
  · simp [recordsOf]
  · split <;> simp [recordsOf]

theorem recordsOf_genEvents (metadata : Option Metadata) (c : Nat) :
    recordsOf (genEvents metadata c) = [] := by
  unfold genEvents
  cases metadata.bind Metadata.id <;> simp [recordsOf]

theorem recordsOf_nil : recordsOf [] = [] := by
  simp [recordsOf]

theorem recordsOf_broadcast (n : Nat) (l : List Event) :
    recordsOf (Event.broadcast n :: l) = recordsOf l := by
  simp [recordsOf]

theorem recordsOf_getTransaction (hash : Hash) (l : List Event) :
    recordsOf (Event.getTransaction hash :: l) = recordsOf l := by
  simp [recordsOf]

theorem recordsOf_rawBroadcast (l : List Event) :
    recordsOf (Event.rawBroadcast :: l) = recordsOf l := by
  simp [recordsOf]

theorem recordsOf_record (t : TrackedTransaction) (l : List Event) :
    recordsOf (Event.record t :: l) = t :: recordsOf l := by
  simp [recordsOf]

theorem countP_net_lookupEvents (fromAddr : Address) (no : Option NonceOption) :
    (lookupEvents fromAddr no).countP isNetworkCall = (lookupEvents fromAddr no).length := by
  rcases no with _ | no
  · simp [lookupEvents, isNetworkCall]
  · rcases no with n | t <;> simp [lookupEvents, isNetworkCall]

theorem countP_net_warnList (env : Env) (hash : Hash) (n : Nat) :
    (warnList env hash n).countP isNetworkCall = 0 := by
  unfold warnList
  cases env.getTransaction hash
  · simp [isNetworkCall]
  · split <;> simp [isNetworkCall]

theorem countP_net_genEvents (metadata : Option Metadata) (c : Nat) :
    (genEvents metadata c).countP isNetworkCall = 0 := by
  unfold genEvents
  cases metadata.bind Metadata.id <;> simp [isNetworkCall]

theorem extractTransactionContext_noAccount (env : Env) (account : Option AccountRef)
    (nonce : Option NonceOption) (s : St)
    (h : resolveAccountAddress (effAccount env account) = none) :
    extractTransactionContext env account nonce s = (Except.error Err.noAccount, s) := by
  simp [extractTransactionContext, h, mthrow]

theorem extractTransactionContext_run (env : Env) (account : Option AccountRef)
    (nonce : Option NonceOption) (s : St) (fromAddr : Address)
    (h : resolveAccountAddress (effAccount env account) = some fromAddr) :
    extractTransactionContext env account nonce s =
      ((resolvedNonce env fromAddr nonce).map fun n =>
         { fromAddr := fromAddr, intendedNonce := n },
       { s with clock := s.clock + (lookupEvents fromAddr nonce).length,
                trace := s.trace ++ lookupEvents fromAddr nonce }) := by
  unfold extractTransactionContext
  rw [h]
  rcases nonce with _ | no
  · simp only [resolveNonce, resolvedNonce, lookupEvents, lookupTag,
      callGetTransactionCount, netCall, mbind, mret]
    cases henv : env.getTransactionCount fromAddr BlockTag.pending <;> simp [Except.map]
  · rcases no with n | t
    · simp [resolveNonce, resolvedNonce, lookupEvents, mbind, mret, Except.map]
    · simp only [resolveNonce, resolvedNonce, lookupEvents, lookupTag,
        callGetTransactionCount, netCall, mbind, mret]
      cases henv : env.getTransactionCount fromAddr t <;> simp [Except.map]

theorem verifyTransactionNonce_run (env : Env) (hash : Hash) (intendedNonce : Nat) (s : St) :
    verifyTransactionNonce env hash intendedNonce s =
      (Except.ok (verifiedNonce env hash intendedNonce),
       { s with clock := s.clock + 1,
                trace := s.trace ++ [Event.getTransaction hash]
                  ++ warnList env hash intendedNonce }) := by
  unfold verifyTransactionNonce verifiedNonce warnList
  cases h : env.getTransaction hash
  · simp
  · rename_i m
    by_cases hm : m = intendedNonce
    · simp [hm]
    · simp [hm]

theorem createTrackedTransaction_run (env : Env) (txHash : Hash) (fromAddr : Address)
    (nonce : Nat) (metadata : Option Metadata) (request : Request) (s : St) :
    createTrackedTransaction env txHash fromAddr nonce metadata request s =
      (Except.ok (mkRecord env txHash fromAddr nonce metadata request s.uuidCounter s.clock),
       { s with uuidCounter := s.uuidCounter + genCount metadata,
                trace := s.trace ++ genEvents metadata s.uuidCounter
                  ++ [Event.record (mkRecord env txHash fromAddr nonce metadata request
                        s.uuidCounter s.clock)] }) := by
  unfold createTrackedTransaction mkRecord genEvents genCount
  cases h : metadata.bind Metadata.id
  · simp [h, mbind, generateTrackingId, dateNow, mret]
  · simp [h, mbind, mret, dateNow]

/-! Characterisations of whole executor runs, one per control path. -/

theorem executeTracked_noAccount {R : Type} (env : Env) (account : Option AccountRef)
    (nonce : Option NonceOption) (metadata : Option Metadata) (restArgs : StrippedArgs)
    (execute : StrippedArgs → Nat → M R) (extractHash : R → Hash) (s : St)
    (h : resolveAccountAddress (effAccount env account) = none) :
    executeTrackedTransaction env account nonce metadata restArgs execute extractHash s =
      (Except.error Err.noAccount, s) := by
  unfold executeTrackedTransaction
  simp [mbind, extractTransactionContext_noAccount env account nonce s h]

theorem executeTracked_nonceError {R : Type} (env : Env) (account : Option AccountRef)
    (nonce : Option NonceOption) (metadata : Option Metadata) (restArgs : StrippedArgs)
    (execute : StrippedArgs → Nat → M R) (extractHash : R → Hash) (s : St)
    (fromAddr : Address) (e : Err)
    (hf : resolveAccountAddress (effAccount env account) = some fromAddr)
    (hn : resolvedNonce env fromAddr nonce = Except.error e) :
    executeTrackedTransaction env account nonce metadata restArgs execute extractHash s =
      (Except.error e,
       { s with clock := s.clock + (lookupEvents fromAddr nonce).length,
                trace := s.trace ++ lookupEvents fromAddr nonce }) := by
  unfold executeTrackedTransaction
  simp [mbind, extractTransactionContext_run env account nonce s fromAddr hf, hn, Except.map]

theorem executeTracked_broadcastError {R : Type} (env : Env) (account : Option AccountRef)
    (nonce : Option NonceOption) (metadata : Option Metadata) (restArgs : StrippedArgs)
    (impl : StrippedArgs → Nat → Except Err R) (extractHash : R → Hash) (s : St)
    (fromAddr : Address) (n : Nat) (e : Err)
    (hf : resolveAccountAddress (effAccount env account) = some fromAddr)
    (hn : resolvedNonce env fromAddr nonce = Except.ok n)
    (hb : impl restArgs n = Except.error e) :
    executeTrackedTransaction env account nonce metadata restArgs (broadcastVia impl)
      extractHash s =
      (Except.error e,
       { s with clock := s.clock + (lookupEvents fromAddr nonce).length + 1,
                trace := s.trace ++ lookupEvents fromAddr nonce ++ [Event.broadcast n] }) := by
  unfold executeTrackedTransaction
  simp [mbind, extractTransactionContext_run env account nonce s fromAddr hf, hn, Except.map,
    broadcastVia, netCall, hb]

theorem executeTracked_ok {R : Type} (env : Env) (account : Option AccountRef)
    (nonce : Option NonceOption) (metadata : Option Metadata) (restArgs : StrippedArgs)
    (impl : StrippedArgs → Nat → Except Err R) (extractHash : R → Hash) (s : St)
    (fromAddr : Address) (n : Nat) (r : R)
    (hf : resolveAccountAddress (effAccount env account) = some fromAddr)
    (hn : resolvedNonce env fromAddr nonce = Except.ok n)
    (hb : impl restArgs n = Except.ok r) :
    executeTrackedTransaction env account nonce metadata restArgs (broadcastVia impl)
      extractHash s =
      (Except.ok r,
       { uuidCounter := s.uuidCounter + genCount metadata,
         clock := s.clock + (lookupEvents fromAddr nonce).length + 1 + 1,
         trace := s.trace ++ lookupEvents fromAddr nonce ++ [Event.broadcast n]
           ++ [Event.getTransaction (extractHash r)]
           ++ warnList env (extractHash r) n
           ++ genEvents metadata s.uuidCounter
           ++ [Event.record (mkRecord env (extractHash r) fromAddr
                 (verifiedNonce env (extractHash r) n) metadata (Request.call restArgs)
                 s.uuidCounter
                 (s.clock + (lookupEvents fromAddr nonce).length + 1 + 1))] }) := by
  unfold executeTrackedTransaction
  simp [mbind, extractTransactionContext_run env account nonce s fromAddr hf, hn, Except.map,
    broadcastVia, netCall, hb, verifyTransactionNonce_run, createTrackedTransaction_run, mret]

theorem executeRaw_parseError {R : Type} (env : Env) (st : RawTx) (metadata : Option Metadata)
    (execute : M R) (extractHash : R → Hash) (s : St) (e : Err)
    (h : env.parseTransaction st = Except.error e) :
    executeTrackedRawTransaction env st metadata execute extractHash s =
      (Except.error e, s) := by
  unfold executeTrackedRawTransaction extractRawTransactionContext
  simp [mbind, mthrow, h]

theorem executeRaw_noNonce {R : Type} (env : Env) (st : RawTx) (metadata : Option Metadata)
    (execute : M R) (extractHash : R → Hash) (s : St) (p : ParsedTx)
    (hp : env.parseTransaction st = Except.ok p) (hn : p.nonce = none) :
    executeTrackedRawTransaction env st metadata execute extractHash s =
      (Except.error Err.cannotExtractNonce, s) := by
  unfold executeTrackedRawTransaction extractRawTransactionContext
  simp [mbind, mthrow, hp, hn]

theorem executeRaw_recoverError {R : Type} (env : Env) (st : RawTx) (metadata : Option Metadata)
    (execute : M R) (extractHash : R → Hash) (s : St) (p : ParsedTx) (n : Nat) (e : Err)
    (hp : env.parseTransaction st = Except.ok p) (hn : p.nonce = some n)
    (hr : env.recoverTransactionAddress st = Except.error e) :
    executeTrackedRawTransaction env st metadata execute extractHash s =
      (Except.error e, s) := by
  unfold executeTrackedRawTransaction extractRawTransactionContext
  simp [mbind, mthrow, hp, hn, hr]

theorem executeRaw_broadcastError {R : Type} (env : Env) (st : RawTx)
    (metadata : Option Metadata) (res : Except Err R) (extractHash : R → Hash) (s : St)
    (p : ParsedTx) (n : Nat) (fromAddr : Address) (e : Err)
    (hp : env.parseTransaction st = Except.ok p) (hn : p.nonce = some n)
    (hr : env.recoverTransactionAddress st = Except.ok fromAddr)
    (hb : res = Except.error e) :
    executeTrackedRawTransaction env st metadata (netCall Event.rawBroadcast res)
      extractHash s =
      (Except.error e,
       { s with clock := s.clock + 1, trace := s.trace ++ [Event.rawBroadcast] }) := by
  unfold executeTrackedRawTransaction extractRawTransactionContext
  simp [mbind, mthrow, mret, hp, hn, hr, netCall, hb]

theorem executeRaw_ok {R : Type} (env : Env) (st : RawTx)
    (metadata : Option Metadata) (res : Except Err R) (extractHash : R → Hash) (s : St)
    (p : ParsedTx) (n : Nat) (fromAddr : Address) (r : R)
    (hp : env.parseTransaction st = Except.ok p) (hn : p.nonce = some n)
    (hr : env.recoverTransactionAddress st = Except.ok fromAddr)
    (hb : res = Except.ok r) :
    executeTrackedRawTransaction env st metadata (netCall Event.rawBroadcast res)
      extractHash s =
      (Except.ok r,
       { uuidCounter := s.uuidCounter + genCount metadata,
         clock := s.clock + 1,
         trace := s.trace ++ [Event.rawBroadcast] ++ genEvents metadata s.uuidCounter
           ++ [Event.record (mkRecord env (extractHash r) fromAddr n metadata
                 (Request.raw st) s.uuidCounter (s.clock + 1))] }) := by
  unfold executeTrackedRawTransaction extractRawTransactionContext
  simp [mbind, mthrow, mret, hp, hn, hr, netCall, hb, createTrackedTransaction_run]

theorem mapOutcome_run {R : Type} (f : R → Outcome) (x : M R) (s : St) :
    mapOutcome f x s = ((x s).1.map f, (x s).2) := by
  unfold mapOutcome
  rcases h : x s with ⟨r, s1⟩
  cases r <;> simp [Except.map]

/-- What a successful run of the shared call-family executor guarantees:
exactly one tracking record is produced, its caller-determined fields have
their closed forms (the tracking id from the metadata id or the uuid stream
position at entry, so from no network response), its timestamp is the clock
after all the round-trips of the run, and the uuid stream advanced only for
a generated id. -/
theorem executeTracked_ok_spec {R : Type} (env : Env) (account : Option AccountRef)
    (nonce : Option NonceOption) (metadata : Option Metadata) (restArgs : StrippedArgs)
    (impl : StrippedArgs → Nat → Except Err R) (extractHash : R → Hash) (s : St) (r : R)
    (h : (executeTrackedTransaction env account nonce metadata restArgs (broadcastVia impl)
           extractHash s).1 = Except.ok r) :
    ∃ t l,
      (executeTrackedTransaction env account nonce metadata restArgs (broadcastVia impl)
        extractHash s).2.trace = s.trace ++ l ∧
      recordsOf (executeTrackedTransaction env account nonce metadata restArgs
        (broadcastVia impl) extractHash s).2.trace = recordsOf s.trace ++ [t] ∧
      t.trackingId = ((metadata.bind Metadata.id).getD (env.uuidOf s.uuidCounter)) ∧
      t.metadata = metadata.getD {} ∧
      t.request = Request.call restArgs ∧
      t.chainId = env.chainId.getD 1 ∧
      t.initiatedAt = (executeTrackedTransaction env account nonce metadata restArgs
        (broadcastVia impl) extractHash s).2.clock ∧
      (executeTrackedTransaction env account nonce metadata restArgs (broadcastVia impl)
        extractHash s).2.clock = s.clock + l.countP isNetworkCall ∧
      1 ≤ l.countP isNetworkCall ∧
      (executeTrackedTransaction env account nonce metadata restArgs (broadcastVia impl)
        extractHash s).2.uuidCounter = s.uuidCounter + genCount metadata := by
  cases hacc : resolveAccountAddress (effAccount env account) with
  | none =>
    rw [executeTracked_noAccount env account nonce metadata restArgs (broadcastVia impl)
      extractHash s hacc] at h
    simp at h
  | some fromAddr =>
    cases hres : resolvedNonce env fromAddr nonce with
    | error e =>
      rw [executeTracked_nonceError env account nonce metadata restArgs (broadcastVia impl)
        extractHash s fromAddr e hacc hres] at h
      simp at h
    | ok n =>
      cases hbr : impl restArgs n with
      | error e =>
        rw [executeTracked_broadcastError env account nonce metadata restArgs impl
          extractHash s fromAddr n e hacc hres hbr] at h
        simp at h
      | ok r0 =>
        have heq := executeTracked_ok env account nonce metadata restArgs impl
          extractHash s fromAddr n r0 hacc hres hbr
        rw [heq] at h
        simp at h
        subst h
        rw [heq]
        refine ⟨mkRecord env (extractHash r0) fromAddr (verifiedNonce env (extractHash r0) n)
          metadata (Request.call restArgs) s.uuidCounter
          (s.clock + (lookupEvents fromAddr nonce).length + 1 + 1),
          lookupEvents fromAddr nonce ++ [Event.broadcast n]
            ++ [Event.getTransaction (extractHash r0)]
            ++ warnList env (extractHash r0) n
            ++ genEvents metadata s.uuidCounter
            ++ [Event.record (mkRecord env (extractHash r0) fromAddr
                  (verifiedNonce env (extractHash r0) n) metadata (Request.call restArgs)
                  s.uuidCounter
                  (s.clock + (lookupEvents fromAddr nonce).length + 1 + 1))],
          ?_, ?_, ?_, ?_, ?_, ?_, ?_, ?_, ?_, ?_⟩
        · simp [List.append_assoc]
        · simp [recordsOf_append, recordsOf_lookupEvents, recordsOf_warnList,
            recordsOf_genEvents, recordsOf_broadcast, recordsOf_getTransaction,
            recordsOf_record, recordsOf_nil]
        · simp [mkRecord]
        · simp [mkRecord]
        · simp [mkRecord]
        · simp [mkRecord]
        · simp [mkRecord]
        · simp [List.countP_append, countP_net_lookupEvents, countP_net_warnList,
            countP_net_genEvents, List.countP_cons, isNetworkCall]
          omega
        · simp [List.countP_append, countP_net_lookupEvents, countP_net_warnList,
            countP_net_genEvents, List.countP_cons, isNetworkCall]
        · simp

/-- What a successful run of the relay executor guarantees, in the same
form as the call-family executor. -/
theorem executeRaw_ok_spec {R : Type} (env : Env) (st : RawTx)
    (metadata : Option Metadata) (res : Except Err R) (extractHash : R → Hash) (s : St) (r : R)
    (h : (executeTrackedRawTransaction env st metadata (netCall Event.rawBroadcast res)
           extractHash s).1 = Except.ok r) :
    ∃ t l,
      (executeTrackedRawTransaction env st metadata (netCall Event.rawBroadcast res)
        extractHash s).2.trace = s.trace ++ l ∧
      recordsOf (executeTrackedRawTransaction env st metadata
        (netCall Event.rawBroadcast res) extractHash s).2.trace
        = recordsOf s.trace ++ [t] ∧
      t.trackingId = ((metadata.bind Metadata.id).getD (env.uuidOf s.uuidCounter)) ∧
      t.metadata = metadata.getD {} ∧
      t.request = Request.raw st ∧
      t.chainId = env.chainId.getD 1 ∧
      t.initiatedAt = (executeTrackedRawTransaction env st metadata
        (netCall Event.rawBroadcast res) extractHash s).2.clock ∧
      (executeTrackedRawTransaction env st metadata (netCall Event.rawBroadcast res)
        extractHash s).2.clock = s.clock + l.countP isNetworkCall ∧
      1 ≤ l.countP isNetworkCall ∧
      (executeTrackedRawTransaction env st metadata (netCall Event.rawBroadcast res)
        extractHash s).2.uuidCounter = s.uuidCounter + genCount metadata := by
  cases hp : env.parseTransaction st with
  | error e =>
    rw [executeRaw_parseError env st metadata (netCall Event.rawBroadcast res)
      extractHash s e hp] at h
    simp at h
  | ok p =>
    cases hn : p.nonce with
    | none =>
      rw [executeRaw_noNonce env st metadata (netCall Event.rawBroadcast res)
        extractHash s p hp hn] at h
      simp at h
    | some n =>
      cases hr : env.recoverTransactionAddress st with
      | error e =>
        rw [executeRaw_recoverError env st metadata (netCall Event.rawBroadcast res)
          extractHash s p n e hp hn hr] at h
        simp at h
      | ok fromAddr =>
        cases res with
        | error e =>
          rw [executeRaw_broadcastError env st metadata (Except.error e) extractHash s p n
            fromAddr e hp hn hr rfl] at h
          simp at h
        | ok r0 =>
          have heq := executeRaw_ok env st metadata (Except.ok r0) extractHash s p n fromAddr r0
            hp hn hr rfl
          rw [heq] at h
          simp at h
          subst h
          rw [heq]
          refine ⟨mkRecord env (extractHash r0) fromAddr n metadata (Request.raw st)
            s.uuidCounter (s.clock + 1),
            [Event.rawBroadcast] ++ genEvents metadata s.uuidCounter
              ++ [Event.record (mkRecord env (extractHash r0) fromAddr n metadata
                    (Request.raw st) s.uuidCounter (s.clock + 1))],
            ?_, ?_, ?_, ?_, ?_, ?_, ?_, ?_, ?_, ?_⟩
          · simp [List.append_assoc]
          · simp [recordsOf_append, recordsOf_genEvents, recordsOf_rawBroadcast,
              recordsOf_record, recordsOf_nil]
          · simp [mkRecord]
          · simp [mkRecord]
          · simp [mkRecord]
          · simp [mkRecord]
          · simp [mkRecord]
          · simp [List.countP_append, countP_net_genEvents, List.countP_cons, isNetworkCall]
          · simp [List.countP_append, countP_net_genEvents, List.countP_cons, isNetworkCall]
          · simp

/-- What a successful run of any of the six public operations guarantees,
stated uniformly over the operation. -/
theorem runOp_ok_spec (env : Env) (op : Op) (s : St) (o : Outcome)
    (h : (runOp env op s).1 = Except.ok o) :
    ∃ t l,
      (runOp env op s).2.trace = s.trace ++ l ∧
      recordsOf (runOp env op s).2.trace = recordsOf s.trace ++ [t] ∧
      t.trackingId = ((opMetadata op).bind Metadata.id).getD (env.uuidOf s.uuidCounter) ∧
      t.metadata = (opMetadata op).getD {} ∧
      t.request = opRequest op ∧
      t.chainId = env.chainId.getD 1 ∧
      t.initiatedAt = (runOp env op s).2.clock ∧
      (runOp env op s).2.clock = s.clock + l.countP isNetworkCall ∧
      1 ≤ l.countP isNetworkCall ∧
      (runOp env op s).2.uuidCounter = s.uuidCounter + genCount (opMetadata op) := by
  cases op with
  | write args =>
    rw [runOp, mapOutcome_run] at h
    simp only [] at h
    cases hw : (writeContract env args s).1 with
    | error e => rw [hw] at h; simp [Except.map] at h
    | ok r =>
      have hspec := executeTracked_ok_spec env (normalizeAccount args.account) args.nonce
        args.metadata (stripArgs args) env.writeContractImpl (fun hash => hash) s r hw
      rw [runOp, mapOutcome_run]
      simpa [writeContract, opMetadata, opRequest] using hspec
  | send args =>
    rw [runOp, mapOutcome_run] at h
    cases hw : (sendTransaction env args s).1 with
    | error e => rw [hw] at h; simp [Except.map] at h
    | ok r =>
      have hspec := executeTracked_ok_spec env (normalizeAccount args.account) args.nonce
        args.metadata (stripArgs args) env.sendTransactionImpl (fun hash => hash) s r hw
      rw [runOp, mapOutcome_run]
      simpa [sendTransaction, opMetadata, opRequest] using hspec
  | writeSync args =>
    rw [runOp, mapOutcome_run] at h
    cases hw : (writeContractSync env args s).1 with
    | error e => rw [hw] at h; simp [Except.map] at h
    | ok r =>
      have hspec := executeTracked_ok_spec env (normalizeAccount args.account) args.nonce
        args.metadata (stripArgs args) env.writeContractSyncImpl
        (fun receipt => receipt.transactionHash) s r hw
      rw [runOp, mapOutcome_run]
      simpa [writeContractSync, opMetadata, opRequest] using hspec
  | sendSync args =>
    rw [runOp, mapOutcome_run] at h
    cases hw : (sendTransactionSync env args s).1 with
    | error e => rw [hw] at h; simp [Except.map] at h
    | ok r =>
      have hspec := executeTracked_ok_spec env (normalizeAccount args.account) args.nonce
        args.metadata (stripArgs args) env.sendTransactionSyncImpl
        (fun receipt => receipt.transactionHash) s r hw
      rw [runOp, mapOutcome_run]
      simpa [sendTransactionSync, opMetadata, opRequest] using hspec
  | raw args =>
    rw [runOp, mapOutcome_run] at h
    cases hw : (sendRawTransaction env args s).1 with
    | error e => rw [hw] at h; simp [Except.map] at h
    | ok r =>
      have hspec := executeRaw_ok_spec env args.serializedTransaction args.metadata
        (env.sendRawTransactionImpl args.serializedTransaction) (fun hash => hash) s r hw
      rw [runOp, mapOutcome_run]
      simpa [sendRawTransaction, opMetadata, opRequest] using hspec
  | rawSync args =>
    rw [runOp, mapOutcome_run] at h
    cases hw : (sendRawTransactionSync env args s).1 with
    | error e => rw [hw] at h; simp [Except.map] at h
    | ok r =>
      have hspec := executeRaw_ok_spec env args.serializedTransaction args.metadata
        (env.sendRawTransactionSyncImpl args.serializedTransaction)
        (fun receipt => receipt.transactionHash) s r hw
      rw [runOp, mapOutcome_run]
      simpa [sendRawTransactionSync, opMetadata, opRequest] using hspec

/-- The uuid stream of the concrete environment is injective: distinct
stream positions yield distinct identifiers. -/
theorem envA_uuidOf_injective : Function.Injective envA.uuidOf := by
  intro a b hab
  have h2 : (String.mk (List.replicate a 'u')).data = (String.mk (List.replicate b 'u')).data := by
    simpa [envA] using congrArg String.data hab
  simpa using congrArg List.length h2

/-! The claims. -/

/-- C2: a contract-call or transfer operation invoked with no account
argument and no wallet-client default rejects with the no-account
configuration error and leaves the run state untouched: in particular the
nonce-lookup collaborator and the broadcast collaborator are never
invoked. -/
theorem C2_fail_fast_missing_account (env : Env) (s : St) (args : CallArgs)
    (hwallet : env.walletAccount = none) (hacct : args.account = none) :
    writeContract env args s = (Except.error Err.noAccount, s) ∧
    sendTransaction env args s = (Except.error Err.noAccount, s) ∧
    writeContractSync env args s = (Except.error Err.noAccount, s) ∧
    sendTransactionSync env args s = (Except.error Err.noAccount, s) := by
  have h : resolveAccountAddress (effAccount env (normalizeAccount args.account)) = none := by
    simp [effAccount, normalizeAccount, hacct, hwallet, resolveAccountAddress]
  refine ⟨?_, ?_, ?_, ?_⟩
  · rw [writeContract]
    exact executeTracked_noAccount env (normalizeAccount args.account) args.nonce args.metadata
      (stripArgs args) (broadcastVia env.writeContractImpl) (fun hash => hash) s h
  · rw [sendTransaction]
    exact executeTracked_noAccount env (normalizeAccount args.account) args.nonce args.metadata
      (stripArgs args) (broadcastVia env.sendTransactionImpl) (fun hash => hash) s h
  · rw [writeContractSync]
    exact executeTracked_noAccount env (normalizeAccount args.account) args.nonce args.metadata
      (stripArgs args) (broadcastVia env.writeContractSyncImpl)
      (fun receipt => receipt.transactionHash) s h
  · rw [sendTransactionSync]
    exact executeTracked_noAccount env (normalizeAccount args.account) args.nonce args.metadata
      (stripArgs args) (broadcastVia env.sendTransactionSyncImpl)
      (fun receipt => receipt.transactionHash) s h

/-- Witness for C2 at a concrete environment with no wallet account and
concrete argument records with no account field. -/
theorem C2_fail_fast_missing_account_witness :
    envNoAcct.walletAccount = none ∧ argsA.account = none ∧
    (writeContract envNoAcct argsA st0 = (Except.error Err.noAccount, st0) ∧
     sendTransaction envNoAcct argsA st0 = (Except.error Err.noAccount, st0) ∧
     writeContractSync envNoAcct argsA st0 = (Except.error Err.noAccount, st0) ∧
     sendTransactionSync envNoAcct argsA st0 = (Except.error Err.noAccount, st0)) :=
  ⟨rfl, rfl, C2_fail_fast_missing_account envNoAcct st0 argsA rfl rfl⟩

/-- C6: a relay operation whose serialized payload parses to a transaction
with no nonce rejects with the decoding error and leaves the run state
untouched: in particular the underlying relay broadcast is never
invoked. -/
theorem C6_missing_nonce_decoding_error (env : Env) (s : St) (args : RawArgs) (p : ParsedTx)
    (hp : env.parseTransaction args.serializedTransaction = Except.ok p)
    (hn : p.nonce = none) :
    sendRawTransaction env args s = (Except.error Err.cannotExtractNonce, s) ∧
    sendRawTransactionSync env args s = (Except.error Err.cannotExtractNonce, s) := by
  constructor
  · rw [sendRawTransaction]
    exact executeRaw_noNonce env args.serializedTransaction args.metadata
      (netCall Event.rawBroadcast (env.sendRawTransactionImpl args.serializedTransaction))
      (fun hash => hash) s p hp hn
  · rw [sendRawTransactionSync]
    exact executeRaw_noNonce env args.serializedTransaction args.metadata
      (netCall Event.rawBroadcast (env.sendRawTransactionSyncImpl args.serializedTransaction))
      (fun receipt => receipt.transactionHash) s p hp hn

/-- Witness for C6 at a concrete environment whose parsed payloads carry no
nonce. -/
theorem C6_missing_nonce_decoding_error_witness :
    envNoNonce.parseTransaction rawArgsA.serializedTransaction
        = Except.ok ({ nonce := none } : ParsedTx) ∧
    (sendRawTransaction envNoNonce rawArgsA st0
        = (Except.error Err.cannotExtractNonce, st0) ∧
     sendRawTransactionSync envNoNonce rawArgsA st0
        = (Except.error Err.cannotExtractNonce, st0)) :=
  ⟨rfl, C6_missing_nonce_decoding_error envNoNonce st0 rawArgsA { nonce := none } rfl rfl⟩

/-- C1: when the underlying signing/broadcast client call of any of the six
operations rejects, the wrapper operation rejects with that very error and
no TrackedTransaction record is constructed (the trace gains no record, so
the extension hook has nothing to consume). -/
theorem C1_broadcast_failure_propagates (env : Env) (s : St) (e : Err) :
    (∀ args fromAddr n,
      resolveAccountAddress (effAccount env (normalizeAccount args.account)) = some fromAddr →
      resolvedNonce env fromAddr args.nonce = Except.ok n →
      ((env.writeContractImpl (stripArgs args) n = Except.error e →
          (writeContract env args s).1 = Except.error e ∧
          recordsOf (writeContract env args s).2.trace = recordsOf s.trace) ∧
       (env.sendTransactionImpl (stripArgs args) n = Except.error e →
          (sendTransaction env args s).1 = Except.error e ∧
          recordsOf (sendTransaction env args s).2.trace = recordsOf s.trace) ∧
       (env.writeContractSyncImpl (stripArgs args) n = Except.error e →
          (writeContractSync env args s).1 = Except.error e ∧
          recordsOf (writeContractSync env args s).2.trace = recordsOf s.trace) ∧
       (env.sendTransactionSyncImpl (stripArgs args) n = Except.error e →
          (sendTransactionSync env args s).1 = Except.error e ∧
          recordsOf (sendTransactionSync env args s).2.trace = recordsOf s.trace))) ∧
    (∀ args p n fromAddr,
      env.parseTransaction args.serializedTransaction = Except.ok p →
      p.nonce = some n →
      env.recoverTransactionAddress args.serializedTransaction = Except.ok fromAddr →
      ((env.sendRawTransactionImpl args.serializedTransaction = Except.error e →
          (sendRawTransaction env args s).1 = Except.error e ∧
          recordsOf (sendRawTransaction env args s).2.trace = recordsOf s.trace) ∧
       (env.sendRawTransactionSyncImpl args.serializedTransaction = Except.error e →
          (sendRawTransactionSync env args s).1 = Except.error e ∧
          recordsOf (sendRawTransactionSync env args s).2.trace = recordsOf s.trace))) := by
  constructor
  · intro args fromAddr n hf hn
    refine ⟨?_, ?_, ?_, ?_⟩
    · intro hb
      rw [writeContract, executeTracked_broadcastError env (normalizeAccount args.account)
        args.nonce args.metadata (stripArgs args) env.writeContractImpl (fun hash => hash)
        s fromAddr n e hf hn hb]
      exact ⟨rfl, by simp [recordsOf_append, recordsOf_lookupEvents, recordsOf_broadcast,
        recordsOf_nil]⟩
    · intro hb
      rw [sendTransaction, executeTracked_broadcastError env (normalizeAccount args.account)
        args.nonce args.metadata (stripArgs args) env.sendTransactionImpl (fun hash => hash)
        s fromAddr n e hf hn hb]
      exact ⟨rfl, by simp [recordsOf_append, recordsOf_lookupEvents, recordsOf_broadcast,
        recordsOf_nil]⟩
    · intro hb
      rw [writeContractSync, executeTracked_broadcastError env (normalizeAccount args.account)
        args.nonce args.metadata (stripArgs args) env.writeContractSyncImpl
        (fun receipt => receipt.transactionHash) s fromAddr n e hf hn hb]
      exact ⟨rfl, by simp [recordsOf_append, recordsOf_lookupEvents, recordsOf_broadcast,
        recordsOf_nil]⟩
    · intro hb
      rw [sendTransactionSync, executeTracked_broadcastError env (normalizeAccount args.account)
        args.nonce args.metadata (stripArgs args) env.sendTransactionSyncImpl
        (fun receipt => receipt.transactionHash) s fromAddr n e hf hn hb]
      exact ⟨rfl, by simp [recordsOf_append, recordsOf_lookupEvents, recordsOf_broadcast,
        recordsOf_nil]⟩
  · intro args p n fromAddr hp hnn hr
    constructor
    · intro hb
      rw [sendRawTransaction, executeRaw_broadcastError env args.serializedTransaction
        args.metadata (env.sendRawTransactionImpl args.serializedTransaction)
        (fun hash => hash) s p n fromAddr e hp hnn hr hb]
      exact ⟨rfl, by simp [recordsOf_append, recordsOf_rawBroadcast, recordsOf_nil]⟩
    · intro hb
      rw [sendRawTransactionSync, executeRaw_broadcastError env args.serializedTransaction
        args.metadata (env.sendRawTransactionSyncImpl args.serializedTransaction)
        (fun receipt => receipt.transactionHash) s p n fromAddr e hp hnn hr hb]
      exact ⟨rfl, by simp [recordsOf_append, recordsOf_rawBroadcast, recordsOf_nil]⟩

/-- Witness for C1: a concrete environment whose broadcast collaborators
reject with the error boom, exercised through writeContract and
sendRawTransaction. -/
theorem C1_broadcast_failure_propagates_witness :
    (resolveAccountAddress (effAccount envErr (normalizeAccount argsA.account)) = some "0xa1"
      ∧ resolvedNonce envErr "0xa1" argsA.nonce = Except.ok 41
      ∧ envErr.writeContractImpl (stripArgs argsA) 41 = Except.error (Err.external "boom")
      ∧ envErr.parseTransaction rawArgsA.serializedTransaction
          = Except.ok ({ nonce := some 9 } : ParsedTx)
      ∧ envErr.recoverTransactionAddress rawArgsA.serializedTransaction = Except.ok "0xr1"
      ∧ envErr.sendRawTransactionImpl rawArgsA.serializedTransaction
          = Except.error (Err.external "boom")) ∧
    ((writeContract envErr argsA st0).1 = Except.error (Err.external "boom") ∧
      recordsOf (writeContract envErr argsA st0).2.trace = recordsOf st0.trace) ∧
    ((sendRawTransaction envErr rawArgsA st0).1 = Except.error (Err.external "boom") ∧
      recordsOf (sendRawTransaction envErr rawArgsA st0).2.trace = recordsOf st0.trace) :=
  ⟨⟨rfl, rfl, rfl, rfl, rfl, rfl⟩,
   (((C1_broadcast_failure_propagates envErr st0 (Err.external "boom")).1
      argsA "0xa1" 41 rfl rfl).1) rfl,
   (((C1_broadcast_failure_propagates envErr st0 (Err.external "boom")).2
      rawArgsA { nonce := some 9 } 9 "0xr1" rfl rfl rfl).1) rfl⟩

/-- Helper for C4: a call-family run whose broadcast succeeded returns the
broadcast result and produces exactly one record carrying the verified
nonce and the resolved sender. -/
theorem executeTracked_ok_record {R : Type} (env : Env) (account : Option AccountRef)
    (nonce : Option NonceOption) (metadata : Option Metadata) (restArgs : StrippedArgs)
    (impl : StrippedArgs → Nat → Except Err R) (extractHash : R → Hash) (s : St)
    (fromAddr : Address) (n : Nat) (r : R)
    (hf : resolveAccountAddress (effAccount env account) = some fromAddr)
    (hn : resolvedNonce env fromAddr nonce = Except.ok n)
    (hb : impl restArgs n = Except.ok r) :
    (executeTrackedTransaction env account nonce metadata restArgs (broadcastVia impl)
        extractHash s).1 = Except.ok r ∧
    ∃ t, recordsOf (executeTrackedTransaction env account nonce metadata restArgs
          (broadcastVia impl) extractHash s).2.trace = recordsOf s.trace ++ [t] ∧
      t.nonce = verifiedNonce env (extractHash r) n ∧ t.fromAddr = fromAddr := by
  rw [executeTracked_ok env account nonce metadata restArgs impl extractHash s fromAddr n r
    hf hn hb]
  refine ⟨rfl, mkRecord env (extractHash r) fromAddr (verifiedNonce env (extractHash r) n)
    metadata (Request.call restArgs) s.uuidCounter
    (s.clock + (lookupEvents fromAddr nonce).length + 1 + 1), ?_, ?_, ?_⟩
  · simp [recordsOf_append, recordsOf_lookupEvents, recordsOf_warnList, recordsOf_genEvents,
      recordsOf_broadcast, recordsOf_getTransaction, recordsOf_record, recordsOf_nil]
  · simp [mkRecord]
  · simp [mkRecord]

/-- C4: once the broadcast of a call-family operation succeeded, the
post-broadcast verification never fails the operation: the operation
resolves with the original broadcast result, and the record's nonce is the
actual on-chain nonce when the lookup succeeds (a mismatch being only a
warning), or the intended nonce when the lookup throws. -/
theorem C4_verification_never_fails (env : Env) (s : St) (args : CallArgs)
    (fromAddr : Address) (n : Nat)
    (hf : resolveAccountAddress (effAccount env (normalizeAccount args.account)) = some fromAddr)
    (hn : resolvedNonce env fromAddr args.nonce = Except.ok n) :
    (∀ r, env.writeContractImpl (stripArgs args) n = Except.ok r →
      (writeContract env args s).1 = Except.ok r ∧
      ∃ t, recordsOf (writeContract env args s).2.trace = recordsOf s.trace ++ [t] ∧
        (∀ m, env.getTransaction r = Except.ok m → t.nonce = m) ∧
        (∀ e2, env.getTransaction r = Except.error e2 → t.nonce = n)) ∧
    (∀ r, env.sendTransactionImpl (stripArgs args) n = Except.ok r →
      (sendTransaction env args s).1 = Except.ok r ∧
      ∃ t, recordsOf (sendTransaction env args s).2.trace = recordsOf s.trace ++ [t] ∧
        (∀ m, env.getTransaction r = Except.ok m → t.nonce = m) ∧
        (∀ e2, env.getTransaction r = Except.error e2 → t.nonce = n)) ∧
    (∀ r, env.writeContractSyncImpl (stripArgs args) n = Except.ok r →
      (writeContractSync env args s).1 = Except.ok r ∧
      ∃ t, recordsOf (writeContractSync env args s).2.trace = recordsOf s.trace ++ [t] ∧
        (∀ m, env.getTransaction r.transactionHash = Except.ok m → t.nonce = m) ∧
        (∀ e2, env.getTransaction r.transactionHash = Except.error e2 → t.nonce = n)) ∧
    (∀ r, env.sendTransactionSyncImpl (stripArgs args) n = Except.ok r →
      (sendTransactionSync env args s).1 = Except.ok r ∧
      ∃ t, recordsOf (sendTransactionSync env args s).2.trace = recordsOf s.trace ++ [t] ∧
        (∀ m, env.getTransaction r.transactionHash = Except.ok m → t.nonce = m) ∧
        (∀ e2, env.getTransaction r.transactionHash = Except.error e2 → t.nonce = n)) := by
  refine ⟨?_, ?_, ?_, ?_⟩
  · intro r hb
    obtain ⟨h1, t, h2, h3, h4⟩ := executeTracked_ok_record env (normalizeAccount args.account)
      args.nonce args.metadata (stripArgs args) env.writeContractImpl (fun hash => hash)
      s fromAddr n r hf hn hb
    rw [writeContract]
    refine ⟨h1, t, h2, ?_, ?_⟩
    · intro m hm
      rw [h3]
      simp [verifiedNonce, hm]
    · intro e2 he
      rw [h3]
      simp [verifiedNonce, he]
  · intro r hb
    obtain ⟨h1, t, h2, h3, h4⟩ := executeTracked_ok_record env (normalizeAccount args.account)
      args.nonce args.metadata (stripArgs args) env.sendTransactionImpl (fun hash => hash)
      s fromAddr n r hf hn hb
    rw [sendTransaction]
    refine ⟨h1, t, h2, ?_, ?_⟩
    · intro m hm
      rw [h3]
      simp [verifiedNonce, hm]
    · intro e2 he
      rw [h3]
      simp [verifiedNonce, he]
  · intro r hb
    obtain ⟨h1, t, h2, h3, h4⟩ := executeTracked_ok_record env (normalizeAccount args.account)
      args.nonce args.metadata (stripArgs args) env.writeContractSyncImpl
      (fun receipt => receipt.transactionHash) s fromAddr n r hf hn hb
    rw [writeContractSync]
    refine ⟨h1, t, h2, ?_, ?_⟩
    · intro m hm
      rw [h3]
      simp [verifiedNonce, hm]
    · intro e2 he
      rw [h3]
      simp [verifiedNonce, he]
  · intro r hb
    obtain ⟨h1, t, h2, h3, h4⟩ := executeTracked_ok_record env (normalizeAccount args.account)
      args.nonce args.metadata (stripArgs args) env.sendTransactionSyncImpl
      (fun receipt => receipt.transactionHash) s fromAddr n r hf hn hb
    rw [sendTransactionSync]
    refine ⟨h1, t, h2, ?_, ?_⟩
    · intro m hm
      rw [h3]
      simp [verifiedNonce, hm]
    · intro e2 he
      rw [h3]
      simp [verifiedNonce, he]

/-- Witness for C4 at the all-succeeding concrete environment, through
writeContract. -/
theorem C4_verification_never_fails_witness :
    (resolveAccountAddress (effAccount envA (normalizeAccount argsA.account)) = some "0xa1"
      ∧ resolvedNonce envA "0xa1" argsA.nonce = Except.ok 41
      ∧ envA.writeContractImpl (stripArgs argsA) 41 = Except.ok "0xh1") ∧
    ((writeContract envA argsA st0).1 = Except.ok "0xh1" ∧
      ∃ t, recordsOf (writeContract envA argsA st0).2.trace = recordsOf st0.trace ++ [t] ∧
        (∀ m, envA.getTransaction "0xh1" = Except.ok m → t.nonce = m) ∧
        (∀ e2, envA.getTransaction "0xh1" = Except.error e2 → t.nonce = 41)) :=
  ⟨⟨rfl, rfl, rfl⟩,
   (C4_verification_never_fails envA st0 argsA "0xa1" 41 rfl rfl).1 "0xh1" rfl⟩

theorem filter_lookup_lookupEvents (fromAddr : Address) (no : Option NonceOption) :
    (lookupEvents fromAddr no).filter isNonceLookup = lookupEvents fromAddr no := by
  rcases no with _ | no
  · simp [lookupEvents, isNonceLookup]
  · rcases no with n | t <;> simp [lookupEvents, isNonceLookup]

theorem filter_lookup_warnList (env : Env) (hash : Hash) (n : Nat) :
    (warnList env hash n).filter isNonceLookup = [] := by
  unfold warnList
  cases env.getTransaction hash
  · simp [isNonceLookup]
  · split <;> simp [isNonceLookup]

theorem filter_lookup_genEvents (metadata : Option Metadata) (c : Nat) :
    (genEvents metadata c).filter isNonceLookup = [] := by
  unfold genEvents
  cases metadata.bind Metadata.id <;> simp [isNonceLookup]

/-- Helper for C3: whatever the collaborators answer, a call-family run
appends a trace segment whose nonce-lookup events are exactly the
resolution's lookup events, and whenever nonce resolution produced a value
the broadcast collaborator was invoked with that value. -/
theorem executeTracked_lookups {R : Type} (env : Env) (account : Option AccountRef)
    (nonce : Option NonceOption) (metadata : Option Metadata) (restArgs : StrippedArgs)
    (impl : StrippedArgs → Nat → Except Err R) (extractHash : R → Hash) (s : St)
    (fromAddr : Address)
    (hf : resolveAccountAddress (effAccount env account) = some fromAddr) :
    ∃ l, (executeTrackedTransaction env account nonce metadata restArgs (broadcastVia impl)
        extractHash s).2.trace = s.trace ++ l ∧
      l.filter isNonceLookup = lookupEvents fromAddr nonce ∧
      (∀ k, resolvedNonce env fromAddr nonce = Except.ok k → Event.broadcast k ∈ l) := by
  cases hres : resolvedNonce env fromAddr nonce with
  | error e =>
    rw [executeTracked_nonceError env account nonce metadata restArgs (broadcastVia impl)
      extractHash s fromAddr e hf hres]
    refine ⟨lookupEvents fromAddr nonce, rfl, filter_lookup_lookupEvents fromAddr nonce, ?_⟩
    intro k hk
    simp at hk
  | ok n =>
    cases hbr : impl restArgs n with
    | error e =>
      rw [executeTracked_broadcastError env account nonce metadata restArgs impl
        extractHash s fromAddr n e hf hres hbr]
      refine ⟨lookupEvents fromAddr nonce ++ [Event.broadcast n], by simp, ?_, ?_⟩
      · simp [List.filter_append, filter_lookup_lookupEvents, isNonceLookup]
      · intro k hk
        simp at hk
        subst hk
        simp
    | ok r =>
      rw [executeTracked_ok env account nonce metadata restArgs impl extractHash s fromAddr n r
        hf hres hbr]
      refine ⟨lookupEvents fromAddr nonce ++ [Event.broadcast n]
        ++ [Event.getTransaction (extractHash r)]
        ++ warnList env (extractHash r) n
        ++ genEvents metadata s.uuidCounter
        ++ [Event.record (mkRecord env (extractHash r) fromAddr
              (verifiedNonce env (extractHash r) n) metadata (Request.call restArgs)
              s.uuidCounter
              (s.clock + (lookupEvents fromAddr nonce).length + 1 + 1))], by simp, ?_, ?_⟩
      · simp [List.filter_append, filter_lookup_lookupEvents, filter_lookup_warnList,
          filter_lookup_genEvents, isNonceLookup]
      · intro k hk
        simp at hk
        subst hk
        simp

/-- Helper for C3 lifted to the four public call-family operations. -/
theorem runOp_call_lookups (env : Env) (args : CallArgs) (s : St) (fromAddr : Address)
    (hf : resolveAccountAddress (effAccount env (normalizeAccount args.account))
      = some fromAddr) :
    ∀ op ∈ [Op.write args, Op.send args, Op.writeSync args, Op.sendSync args],
      ∃ l, (runOp env op s).2.trace = s.trace ++ l ∧
        l.filter isNonceLookup = lookupEvents fromAddr args.nonce ∧
        (∀ k, resolvedNonce env fromAddr args.nonce = Except.ok k → Event.broadcast k ∈ l) := by
  intro op hop
  fin_cases hop
  · rw [runOp, mapOutcome_run]
    simp only [writeContract]
    exact executeTracked_lookups env (normalizeAccount args.account) args.nonce args.metadata
      (stripArgs args) env.writeContractImpl (fun hash => hash) s fromAddr hf
  · rw [runOp, mapOutcome_run]
    simp only [sendTransaction]
    exact executeTracked_lookups env (normalizeAccount args.account) args.nonce args.metadata
      (stripArgs args) env.sendTransactionImpl (fun hash => hash) s fromAddr hf
  · rw [runOp, mapOutcome_run]
    simp only [writeContractSync]
    exact executeTracked_lookups env (normalizeAccount args.account) args.nonce args.metadata
      (stripArgs args) env.writeContractSyncImpl (fun receipt => receipt.transactionHash)
      s fromAddr hf
  · rw [runOp, mapOutcome_run]
    simp only [sendTransactionSync]
    exact executeTracked_lookups env (normalizeAccount args.account) args.nonce args.metadata
      (stripArgs args) env.sendTransactionSyncImpl (fun receipt => receipt.transactionHash)
      s fromAddr hf

/-- C3: for every call-family operation, an explicit numeric nonce is used
verbatim (no nonce-lookup event, broadcast invoked with that number); a tag
nonce triggers exactly one lookup for the resolved sender at that tag; an
absent nonce triggers exactly one lookup at tag pending; in the lookup
cases the looked-up value is the nonce handed to the broadcast. -/
theorem C3_nonce_resolution (env : Env) (s : St) (args : CallArgs) (fromAddr : Address)
    (hf : resolveAccountAddress (effAccount env (normalizeAccount args.account))
      = some fromAddr) :
    (∀ n, args.nonce = some (NonceOption.exact n) →
      ∀ op ∈ [Op.write args, Op.send args, Op.writeSync args, Op.sendSync args],
        ∃ l, (runOp env op s).2.trace = s.trace ++ l ∧
          (∀ ev ∈ l, isNonceLookup ev = false) ∧
          Event.broadcast n ∈ l) ∧
    (∀ t, args.nonce = some (NonceOption.tag t) →
      ∀ op ∈ [Op.write args, Op.send args, Op.writeSync args, Op.sendSync args],
        ∃ l, (runOp env op s).2.trace = s.trace ++ l ∧
          l.filter isNonceLookup = [Event.getTransactionCount fromAddr t] ∧
          (∀ k, env.getTransactionCount fromAddr t = Except.ok k → Event.broadcast k ∈ l)) ∧
    (args.nonce = none →
      ∀ op ∈ [Op.write args, Op.send args, Op.writeSync args, Op.sendSync args],
        ∃ l, (runOp env op s).2.trace = s.trace ++ l ∧
          l.filter isNonceLookup = [Event.getTransactionCount fromAddr BlockTag.pending] ∧
          (∀ k, env.getTransactionCount fromAddr BlockTag.pending = Except.ok k →
            Event.broadcast k ∈ l)) := by
  refine ⟨?_, ?_, ?_⟩
  · intro n hn op hop
    obtain ⟨l, h1, h2, h3⟩ := runOp_call_lookups env args s fromAddr hf op hop
    refine ⟨l, h1, ?_, ?_⟩
    · intro ev hev
      have hnil : l.filter isNonceLookup = [] := by
        rw [h2, hn]
        rfl
      by_contra hx
      have : isNonceLookup ev = true := by
        cases hy : isNonceLookup ev
        · exact absurd hy hx
        · rfl
      have : ev ∈ l.filter isNonceLookup := List.mem_filter.mpr ⟨hev, this⟩
      rw [hnil] at this
      simp at this
    · refine h3 n ?_
      rw [hn]
      rfl
  · intro t ht op hop
    obtain ⟨l, h1, h2, h3⟩ := runOp_call_lookups env args s fromAddr hf op hop
    refine ⟨l, h1, ?_, ?_⟩
    · rw [h2, ht]
      rfl
    · intro k hk
      refine h3 k ?_
      rw [ht]
      simpa [resolvedNonce, lookupTag] using hk
  · intro hnone op hop
    obtain ⟨l, h1, h2, h3⟩ := runOp_call_lookups env args s fromAddr hf op hop
    refine ⟨l, h1, ?_, ?_⟩
    · rw [h2, hnone]
      rfl
    · intro k hk
      refine h3 k ?_
      rw [hnone]
      simpa [resolvedNonce, lookupTag] using hk

/-- Witness for C3: the absent-nonce case at the concrete environment,
through writeContract (one pending lookup, broadcast with its answer). -/
theorem C3_nonce_resolution_witness :
    (resolveAccountAddress (effAccount envA (normalizeAccount argsA.account)) = some "0xa1"
      ∧ argsA.nonce = none
      ∧ Op.write argsA ∈ [Op.write argsA, Op.send argsA, Op.writeSync argsA,
          Op.sendSync argsA]) ∧
    (∃ l, (runOp envA (Op.write argsA) st0).2.trace = st0.trace ++ l ∧
      l.filter isNonceLookup = [Event.getTransactionCount "0xa1" BlockTag.pending] ∧
      (∀ k, envA.getTransactionCount "0xa1" BlockTag.pending = Except.ok k →
        Event.broadcast k ∈ l)) :=
  ⟨⟨rfl, rfl, by simp⟩,
   (C3_nonce_resolution envA st0 argsA "0xa1" rfl).2.2 rfl (Op.write argsA) (by simp)⟩

theorem no_lookup_genEvents (metadata : Option Metadata) (c : Nat) :
    ∀ ev ∈ genEvents metadata c, isNonceLookup ev = false ∧ isTxLookup ev = false := by
  unfold genEvents
  cases metadata.bind Metadata.id with
  | none =>
    intro ev hev
    simp at hev
    subst hev
    exact ⟨rfl, rfl⟩
  | some i =>
    intro ev hev
    simp at hev

/-- Helper for C5: whatever the collaborators answer, a relay run whose
payload parses with a nonce appends a trace segment containing no
nonce-lookup and no transaction-lookup event. -/
theorem executeRaw_no_lookups {R : Type} (env : Env) (st : RawTx)
    (metadata : Option Metadata) (res : Except Err R) (extractHash : R → Hash) (s : St)
    (p : ParsedTx) (n : Nat)
    (hp : env.parseTransaction st = Except.ok p) (hn : p.nonce = some n) :
    ∃ l, (executeTrackedRawTransaction env st metadata (netCall Event.rawBroadcast res)
        extractHash s).2.trace = s.trace ++ l ∧
      ∀ ev ∈ l, isNonceLookup ev = false ∧ isTxLookup ev = false := by
  cases hr : env.recoverTransactionAddress st with
  | error e =>
    rw [executeRaw_recoverError env st metadata (netCall Event.rawBroadcast res) extractHash
      s p n e hp hn hr]
    exact ⟨[], by simp, by simp⟩
  | ok fromAddr =>
    cases res with
    | error e =>
      rw [executeRaw_broadcastError env st metadata (Except.error e) extractHash s p n
        fromAddr e hp hn hr rfl]
      refine ⟨[Event.rawBroadcast], rfl, ?_⟩
      intro ev hev
      simp at hev
      subst hev
      exact ⟨rfl, rfl⟩
    | ok r0 =>
      rw [executeRaw_ok env st metadata (Except.ok r0) extractHash s p n fromAddr r0
        hp hn hr rfl]
      refine ⟨[Event.rawBroadcast] ++ genEvents metadata s.uuidCounter
        ++ [Event.record (mkRecord env (extractHash r0) fromAddr n metadata (Request.raw st)
              s.uuidCounter (s.clock + 1))], by simp, ?_⟩
      intro ev hev
      simp [List.mem_append] at hev
      rcases hev with hev | hev | hev
      · subst hev
        exact ⟨rfl, rfl⟩
      · exact no_lookup_genEvents metadata s.uuidCounter ev hev
      · subst hev
        exact ⟨rfl, rfl⟩

/-- C5: a relay operation whose payload decodes to a transaction with a
nonce never invokes the nonce-lookup collaborator nor the post-broadcast
transaction lookup, and on success its single tracking record carries the
decoded nonce and the sender recovered from the payload's signature. -/
theorem C5_relay_bypass (env : Env) (s : St) (args : RawArgs) (p : ParsedTx) (n : Nat)
    (hp : env.parseTransaction args.serializedTransaction = Except.ok p)
    (hn : p.nonce = some n) :
    (∀ op ∈ [Op.raw args, Op.rawSync args],
      ∃ l, (runOp env op s).2.trace = s.trace ++ l ∧
        ∀ ev ∈ l, isNonceLookup ev = false ∧ isTxLookup ev = false) ∧
    (∀ fromAddr,
      env.recoverTransactionAddress args.serializedTransaction = Except.ok fromAddr →
      (∀ r, env.sendRawTransactionImpl args.serializedTransaction = Except.ok r →
        ∃ t, recordsOf (sendRawTransaction env args s).2.trace = recordsOf s.trace ++ [t] ∧
          t.nonce = n ∧ t.fromAddr = fromAddr) ∧
      (∀ r, env.sendRawTransactionSyncImpl args.serializedTransaction = Except.ok r →
        ∃ t, recordsOf (sendRawTransactionSync env args s).2.trace
            = recordsOf s.trace ++ [t] ∧
          t.nonce = n ∧ t.fromAddr = fromAddr)) := by
  constructor
  · intro op hop
    fin_cases hop
    · rw [runOp, mapOutcome_run]
      simp only [sendRawTransaction]
      exact executeRaw_no_lookups env args.serializedTransaction args.metadata
        (env.sendRawTransactionImpl args.serializedTransaction) (fun hash => hash) s p n hp hn
    · rw [runOp, mapOutcome_run]
      simp only [sendRawTransactionSync]
      exact executeRaw_no_lookups env args.serializedTransaction args.metadata
        (env.sendRawTransactionSyncImpl args.serializedTransaction)
        (fun receipt => receipt.transactionHash) s p n hp hn
  · intro fromAddr hr
    constructor
    · intro r hb
      rw [sendRawTransaction, executeRaw_ok env args.serializedTransaction args.metadata
        (env.sendRawTransactionImpl args.serializedTransaction) (fun hash => hash) s p n
        fromAddr r hp hn hr hb]
      refine ⟨mkRecord env r fromAddr n args.metadata
        (Request.raw args.serializedTransaction) s.uuidCounter (s.clock + 1), ?_, ?_, ?_⟩
      · simp [recordsOf_append, recordsOf_rawBroadcast, recordsOf_genEvents,
          recordsOf_record, recordsOf_nil]
      · simp [mkRecord]
      · simp [mkRecord]
    · intro r hb
      rw [sendRawTransactionSync, executeRaw_ok env args.serializedTransaction args.metadata
        (env.sendRawTransactionSyncImpl args.serializedTransaction)
        (fun receipt => receipt.transactionHash) s p n fromAddr r hp hn hr hb]
      refine ⟨mkRecord env r.transactionHash fromAddr n args.metadata
        (Request.raw args.serializedTransaction) s.uuidCounter (s.clock + 1), ?_, ?_, ?_⟩
      · simp [recordsOf_append, recordsOf_rawBroadcast, recordsOf_genEvents,
          recordsOf_record, recordsOf_nil]
      · simp [mkRecord]
      · simp [mkRecord]

/-- Witness for C5 at the concrete environment (payload parses with nonce
9, sender recovers to a concrete address, broadcast succeeds). -/
theorem C5_relay_bypass_witness :
    (envA.parseTransaction rawArgsA.serializedTransaction
        = Except.ok ({ nonce := some 9 } : ParsedTx)
      ∧ envA.recoverTransactionAddress rawArgsA.serializedTransaction = Except.ok "0xr1"
      ∧ envA.sendRawTransactionImpl rawArgsA.serializedTransaction = Except.ok "0xh5"
      ∧ Op.raw rawArgsA ∈ [Op.raw rawArgsA, Op.rawSync rawArgsA]) ∧
    (∃ l, (runOp envA (Op.raw rawArgsA) st0).2.trace = st0.trace ++ l ∧
      ∀ ev ∈ l, isNonceLookup ev = false ∧ isTxLookup ev = false) ∧
    (∃ t, recordsOf (sendRawTransaction envA rawArgsA st0).2.trace
        = recordsOf st0.trace ++ [t] ∧
      t.nonce = 9 ∧ t.fromAddr = "0xr1") :=
  ⟨⟨rfl, rfl, rfl, by simp⟩,
   (C5_relay_bypass envA st0 rawArgsA { nonce := some 9 } 9 rfl rfl).1
     (Op.raw rawArgsA) (by simp),
   ((C5_relay_bypass envA st0 rawArgsA { nonce := some 9 } 9 rfl rfl).2 "0xr1" rfl).1
     "0xh5" rfl⟩

/-- C7: the tracking id of the single record of any successful submission
is the caller's metadata id when supplied, otherwise the value of the local
uuid stream at the position held on entry: a closed form in the caller
input and local generator state only, hence independent of every network
response; and two successive successful submissions without a metadata id
receive distinct generated identifiers (the stream position advances by
one per generated id). -/
theorem C7_tracking_id (env : Env) :
    (∀ op s o, (runOp env op s).1 = Except.ok o →
      ∃ t, recordsOf (runOp env op s).2.trace = recordsOf s.trace ++ [t] ∧
        t.trackingId = ((opMetadata op).bind Metadata.id).getD (env.uuidOf s.uuidCounter)) ∧
    (∀ op1 op2 s o1 o2, Function.Injective env.uuidOf →
      (opMetadata op1).bind Metadata.id = none →
      (opMetadata op2).bind Metadata.id = none →
      (runOp env op1 s).1 = Except.ok o1 →
      (runOp env op2 (runOp env op1 s).2).1 = Except.ok o2 →
      ∃ t1 t2,
        recordsOf (runOp env op1 s).2.trace = recordsOf s.trace ++ [t1] ∧
        recordsOf (runOp env op2 (runOp env op1 s).2).2.trace
          = recordsOf (runOp env op1 s).2.trace ++ [t2] ∧
        t1.trackingId ≠ t2.trackingId) := by
  constructor
  · intro op s o h
    obtain ⟨t, l, htr, hrec, hid, hmdc, hreq, hch, hin, hclk, hcnt, huuid⟩ :=
      runOp_ok_spec env op s o h
    exact ⟨t, hrec, hid⟩
  · intro op1 op2 s o1 o2 hinj h1 h2 hr1 hr2
    obtain ⟨t1, l1, htr1, hrec1, hid1, hmdc1, hreq1, hch1, hin1, hclk1, hcnt1, huuid1⟩ :=
      runOp_ok_spec env op1 s o1 hr1
    obtain ⟨t2, l2, htr2, hrec2, hid2, hmdc2, hreq2, hch2, hin2, hclk2, hcnt2, huuid2⟩ :=
      runOp_ok_spec env op2 (runOp env op1 s).2 o2 hr2
    refine ⟨t1, t2, hrec1, hrec2, ?_⟩
    rw [hid1, hid2, h1, h2]
    simp only [Option.getD_none]
    rw [huuid1]
    have hg : genCount (opMetadata op1) = 1 := by
      unfold genCount
      rw [h1]
    rw [hg]
    intro hcontra
    have := hinj hcontra
    omega

/-- Witness for C7: two successive writeContract calls without metadata at
the concrete environment, whose uuid stream is injective. -/
theorem C7_tracking_id_witness :
    ((opMetadata (Op.write argsA)).bind Metadata.id = none
      ∧ (runOp envA (Op.write argsA) st0).1 = Except.ok (Outcome.hash "0xh1")
      ∧ (runOp envA (Op.write argsA) (runOp envA (Op.write argsA) st0).2).1
          = Except.ok (Outcome.hash "0xh1")) ∧
    (∃ t1 t2,
      recordsOf (runOp envA (Op.write argsA) st0).2.trace = recordsOf st0.trace ++ [t1] ∧
      recordsOf (runOp envA (Op.write argsA) (runOp envA (Op.write argsA) st0).2).2.trace
        = recordsOf (runOp envA (Op.write argsA) st0).2.trace ++ [t2] ∧
      t1.trackingId ≠ t2.trackingId) :=
  ⟨⟨rfl, rfl, rfl⟩,
   (C7_tracking_id envA).2 (Op.write argsA) (Op.write argsA) st0 (Outcome.hash "0xh1")
     (Outcome.hash "0xh1") envA_uuidOf_injective rfl rfl rfl rfl⟩

/-- C8 counterexample: at a concrete environment and a call with no nonce
option, the run makes three network round-trips (nonce lookup, broadcast,
post-broadcast lookup) before the record is built, so the record's
initiatedAt is the clock value 3 while the clock at submission start was 0:
initiatedAt is not captured at the start of the call before network
I/O. -/
theorem C8_initiated_at_counterexample :
    st0.clock = 0 ∧
    (recordsOf (writeContract envA argsA st0).2.trace).map TrackedTransaction.initiatedAt
      = [3] ∧
    ¬ (∀ t ∈ recordsOf (writeContract envA argsA st0).2.trace,
        t.initiatedAt = st0.clock) :=
  ⟨rfl, by decide, by decide⟩

/-- C8 amended: the record's initiatedAt is the wall clock read when the
tracking record is constructed, after every network round-trip of the run:
it equals the clock at the end of the run, which exceeds the clock at
submission start by the number of network calls made (at least one). -/
theorem C8_initiated_at_amended (env : Env) (op : Op) (s : St) (o : Outcome)
    (h : (runOp env op s).1 = Except.ok o) :
    ∃ t l,
      recordsOf (runOp env op s).2.trace = recordsOf s.trace ++ [t] ∧
      (runOp env op s).2.trace = s.trace ++ l ∧
      t.initiatedAt = (runOp env op s).2.clock ∧
      (runOp env op s).2.clock = s.clock + l.countP isNetworkCall ∧
      1 ≤ l.countP isNetworkCall := by
  obtain ⟨t, l, htr, hrec, hid, hmdc, hreq, hch, hin, hclk, hcnt, huuid⟩ :=
    runOp_ok_spec env op s o h
  exact ⟨t, l, hrec, htr, hin, hclk, hcnt⟩

/-- Witness for the amended C8 at a concrete successful run. -/
theorem C8_initiated_at_amended_witness :
    (runOp envA (Op.write argsA) st0).1 = Except.ok (Outcome.hash "0xh1") ∧
    (∃ t l,
      recordsOf (runOp envA (Op.write argsA) st0).2.trace = recordsOf st0.trace ++ [t] ∧
      (runOp envA (Op.write argsA) st0).2.trace = st0.trace ++ l ∧
      t.initiatedAt = (runOp envA (Op.write argsA) st0).2.clock ∧
      (runOp envA (Op.write argsA) st0).2.clock = st0.clock + l.countP isNetworkCall ∧
      1 ≤ l.countP isNetworkCall) :=
  ⟨rfl, C8_initiated_at_amended envA (Op.write argsA) st0 (Outcome.hash "0xh1") rfl⟩

/-- C9 counterexample: for a call with an explicit numeric nonce option the
stored request is not the original arguments with only metadata removed:
the nonce option is stripped as well (the record's request decodes to the
arguments with metadata and nonce both absent, which differs from the
spec-side request that retains the nonce). -/
theorem C9_request_counterexample :
    (recordsOf (writeContract envA argsC9 st0).2.trace).map
        (fun t => requestAsCallArgs t.request)
      = [some { account := none, nonce := none, metadata := none, rest := "payload" }] ∧
    some ({ account := none, nonce := none, metadata := none, rest := "payload" } : CallArgs)
      ≠ some (specRequestArgs argsC9) ∧
    ¬ (∀ t ∈ recordsOf (writeContract envA argsC9 st0).2.trace,
        requestAsCallArgs t.request = some (specRequestArgs argsC9)) :=
  ⟨by decide, by decide, by decide⟩

/-- C9 amended: the record's request equals the original call arguments
with the metadata and the nonce option both removed; the account and the
remaining arguments are retained (the resolved nonce is recorded separately
in the record's nonce field). -/
theorem C9_request_amended (env : Env) (args : CallArgs) (s : St) :
    ∀ op ∈ [Op.write args, Op.send args, Op.writeSync args, Op.sendSync args],
      ∀ o, (runOp env op s).1 = Except.ok o →
        ∃ t, recordsOf (runOp env op s).2.trace = recordsOf s.trace ++ [t] ∧
          t.request = Request.call { account := args.account, rest := args.rest } := by
  intro op hop o h
  obtain ⟨t, l, htr, hrec, hid, hmdc, hreq, hch, hin, hclk, hcnt, huuid⟩ :=
    runOp_ok_spec env op s o h
  refine ⟨t, hrec, ?_⟩
  rw [hreq]
  simp only [List.mem_cons, List.mem_singleton, List.not_mem_nil, or_false] at hop
  rcases hop with rfl | rfl | rfl | rfl <;> rfl

/-- Witness for the amended C9 at a concrete run with an explicit nonce
option. -/
theorem C9_request_amended_witness :
    (Op.write argsC9
        ∈ [Op.write argsC9, Op.send argsC9, Op.writeSync argsC9, Op.sendSync argsC9]
      ∧ (runOp envA (Op.write argsC9) st0).1 = Except.ok (Outcome.hash "0xh1")) ∧
    (∃ t, recordsOf (runOp envA (Op.write argsC9) st0).2.trace
        = recordsOf st0.trace ++ [t] ∧
      t.request = Request.call { account := argsC9.account, rest := argsC9.rest }) :=
  ⟨⟨by simp, rfl⟩,
   C9_request_amended envA argsC9 st0 (Op.write argsC9) (by simp) (Outcome.hash "0xh1") rfl⟩

/-- C10: when the caller's metadata id is the empty string, the nullish
check keeps it: the record's tracking id is the empty string, no fresh
identifier is generated (the uuid stream position is unchanged), and any
two such successful submissions share the same tracking identifier. -/
theorem C10_empty_string_id (env : Env) (op : Op) (s : St) (o : Outcome) (md : Metadata)
    (hmd : opMetadata op = some md) (hid : md.id = some "")
    (h : (runOp env op s).1 = Except.ok o) :
    ∃ t, recordsOf (runOp env op s).2.trace = recordsOf s.trace ++ [t] ∧
      t.trackingId = "" ∧
      (runOp env op s).2.uuidCounter = s.uuidCounter ∧
      (∀ op2 s2 o2 md2, opMetadata op2 = some md2 → md2.id = some "" →
        (runOp env op2 s2).1 = Except.ok o2 →
        ∃ t2, recordsOf (runOp env op2 s2).2.trace = recordsOf s2.trace ++ [t2] ∧
          t2.trackingId = t.trackingId) := by
  obtain ⟨t, l, htr, hrec, hidt, hmdc, hreq, hch, hin, hclk, hcnt, huuid⟩ :=
    runOp_ok_spec env op s o h
  have hb : (opMetadata op).bind Metadata.id = some "" := by
    rw [hmd]
    simpa using hid
  refine ⟨t, hrec, ?_, ?_, ?_⟩
  · rw [hidt, hb]
    rfl
  · have hg : genCount (opMetadata op) = 0 := by
      unfold genCount
      rw [hb]
    rw [huuid, hg]
    omega
  · intro op2 s2 o2 md2 hmd2 hid2 h2
    obtain ⟨t2, l2, htr2, hrec2, hidt2, hmdc2, hreq2, hch2, hin2, hclk2, hcnt2, huuid2⟩ :=
      runOp_ok_spec env op2 s2 o2 h2
    have hb2 : (opMetadata op2).bind Metadata.id = some "" := by
      rw [hmd2]
      simpa using hid2
    refine ⟨t2, hrec2, ?_⟩
    rw [hidt2, hb2, hidt, hb]
    rfl

/-- Witness for C10 at a concrete call whose metadata id is the empty
string. -/
theorem C10_empty_string_id_witness :
    (opMetadata (Op.write argsEmptyId) = some ({ id := some "" } : Metadata)
      ∧ ({ id := some "" } : Metadata).id = some ""
      ∧ (runOp envA (Op.write argsEmptyId) st0).1 = Except.ok (Outcome.hash "0xh1")) ∧
    (∃ t, recordsOf (runOp envA (Op.write argsEmptyId) st0).2.trace
        = recordsOf st0.trace ++ [t] ∧
      t.trackingId = "" ∧
      (runOp envA (Op.write argsEmptyId) st0).2.uuidCounter = st0.uuidCounter ∧
      (∀ op2 s2 o2 md2, opMetadata op2 = some md2 → md2.id = some "" →
        (runOp envA op2 s2).1 = Except.ok o2 →
        ∃ t2, recordsOf (runOp envA op2 s2).2.trace = recordsOf s2.trace ++ [t2] ∧
          t2.trackingId = t.trackingId)) :=
  ⟨⟨rfl, rfl, rfl⟩,
   C10_empty_string_id envA (Op.write argsEmptyId) st0 (Outcome.hash "0xh1")
     { id := some "" } rfl rfl rfl⟩

end TrackedWallet
